import Mathlib

/-!
Shallow embedding of `src/microbiome_explorer_app.py` (Microbiome–Host
Association Explorer) and proofs about its matcher, filter, and aggregation
logic.  The reference table is a list of `Record`s; pandas column operations
are modelled as list operations; Streamlit's `st.error` + `st.stop` aborts
are modelled with `Except`.
-/

set_option maxHeartbeats 1000000

namespace MicrobiomeExplorer

/-- One row of the reference table `disbiome_with_titles.csv`.  The `Microbe`
column is non-null for every row the matcher touches (the source calls
`.lower()` on each value); the remaining columns may be null (`none` models a
pandas `NaN`). -/
structure Record where
  microbe : String
  condition : Option String
  effect : Option String
  sampleType : Option String
  host : Option String
  method : Option String
  studyTitle : Option String
  pubmedLink : Option String
deriving DecidableEq

/-- Model of Python `str.lower` as used in `ref.lower()` / `q.lower()`
(source line 29): character-wise lower-casing. -/
def pyLower (s : String) : String := ⟨s.data.map Char.toLower⟩

/-- Model of Python `s.startswith(p)` (source line 29): `p`'s characters are
an initial segment of `s`'s characters. -/
def pyStartswith (s p : String) : Bool := p.data.isPrefixOf s.data

/-- Characters stripped by Python `str.strip()` with no argument. -/
def pyWhitespace (c : Char) : Bool :=
  c == ' ' || c == '\t' || c == '\n' || c == '\r' || c == Char.ofNat 11 || c == Char.ofNat 12

/-- Model of Python `str.strip` (source line 21): drop whitespace from both
ends. -/
def pyStrip (s : String) : String :=
  ⟨((s.data.dropWhile pyWhitespace).reverse.dropWhile pyWhitespace).reverse⟩

/-- Source line 29 / 34 / 37 matching rule:
`ref.lower().startswith(q.lower())`. -/
def matchesQuery (refVal q : String) : Bool :=
  pyStartswith (pyLower refVal) (pyLower q)

/-- Model of pandas `.unique()`: the distinct values of a column in order of
first occurrence. -/
def uniqList (l : List String) : List String :=
  match l with
  | [] => []
  | x :: xs => x :: uniqList (xs.filter (fun y => y != x))
termination_by l.length
decreasing_by
  simp only [List.length_cons]
  exact Nat.lt_succ_of_le (List.length_filter_le _ _)

theorem uniqList_nil : uniqList [] = [] := by
  rw [uniqList]

theorem uniqList_cons (x : String) (xs : List String) :
    uniqList (x :: xs) = x :: uniqList (xs.filter (fun y => y != x)) := by
  rw [uniqList]

theorem mem_uniqList : ∀ (l : List String) (a : String), a ∈ uniqList l ↔ a ∈ l := by
  intro l
  induction l using uniqList.induct with
  | case1 => intro a; simp [uniqList]
  | case2 x xs ih =>
    intro a
    rw [uniqList]
    by_cases hax : a = x
    · subst hax; simp
    · simp only [List.mem_cons, ih, List.mem_filter, bne_iff_ne, ne_eq, hax, false_or,
        not_false_iff, and_true]

theorem nodup_uniqList : ∀ (l : List String), (uniqList l).Nodup := by
  intro l
  induction l using uniqList.induct with
  | case1 => simp [uniqList]
  | case2 x xs ih =>
    rw [uniqList]
    refine List.Pairwise.cons ?_ ih
    intro a ha
    have := (mem_uniqList _ a).mp ha
    have := (List.mem_filter.mp this).2
    simp only [bne_iff_ne, ne_eq, decide_eq_true_eq] at this
    exact fun h => this h.symm

theorem sum_counts_uniqList :
    ∀ (l : List String), ((uniqList l).map (fun k => l.count k)).sum = l.length := by
  intro l
  induction l using uniqList.induct with
  | case1 => simp [uniqList]
  | case2 x xs ih =>
    rw [uniqList]
    have hmap :
        (uniqList (xs.filter (fun y => y != x))).map (fun k => (x :: xs).count k)
          = (uniqList (xs.filter (fun y => y != x))).map
              (fun k => (xs.filter (fun y => y != x)).count k) := by
      apply List.map_congr_left
      intro k hk
      have hkmem := (mem_uniqList _ k).mp hk
      have hkne : k ≠ x := by
        have := (List.mem_filter.mp hkmem).2
        simpa [bne_iff_ne] using this
      rw [List.count_cons_of_ne hkne, List.count_filter]
      simp [bne_iff_ne, hkne]
    have hlen : xs.length = (xs.filter (fun y => y != x)).length + xs.count x := by
      have h1 : xs.countP (fun y => y != x) = (xs.filter (fun y => y != x)).length :=
        @List.countP_eq_length_filter _ (fun y => y != x) xs
      have h2 : xs.count x = xs.countP (fun y => y == x) := rfl
      have h3 := List.length_eq_countP_add_countP (fun y => y != x) xs
      have h4 : xs.countP (fun a => decide ¬((a != x) = true)) = xs.countP (fun y => y == x) := by
        apply List.countP_congr
        intro y _
        simp [bne]
      omega
    simp only [List.map_cons, List.sum_cons, hmap, ih, List.count_cons_self, List.length_cons]
    omega

/-- Helper for source lines 29 and 37: does `refVal` match at least one query
(`any(ref.lower().startswith(q.lower()) for q in uploaded_microbes)`). -/
def matchesAny (queries : List String) (refVal : String) : Bool :=
  queries.any (fun q => matchesQuery refVal q)

/-- Source lines 28-30: `working_df` keeps exactly the reference rows whose
Microbe value prefix-matches some uploaded query. -/
def working_df (ref : List Record) (queries : List String) : List Record :=
  ref.filter (fun r => matchesAny queries r.microbe)

/-- One iteration of the loop at source lines 33-35: add to the accumulated
set the distinct reference Microbe values matching query `q`.  The Python
`set` is modelled as a duplicate-free list, `update` as appending the values
not already present. -/
def updateMatched (ref : List Record) (acc : List String) (q : String) : List String :=
  acc ++ ((uniqList (ref.map (fun r => r.microbe))).filter
    (fun v => matchesQuery v q)).filter (fun v => !(acc.contains v))

/-- Source lines 32-35: `matched_microbes`, the set of distinct reference
Microbe values that matched at least one query. -/
def matched_microbes (ref : List Record) (queries : List String) : List String :=
  queries.foldl (updateMatched ref) []

/-- Source line 37: `unmatched`, the uploaded queries for which no reference
Microbe value matches, in their original order. -/
def unmatched (ref : List Record) (queries : List String) : List String :=
  queries.filter (fun m => !(ref.any (fun r => matchesQuery r.microbe m)))

/-- Source lines 21 and 27: the uploaded Microbe column is stripped of
surrounding whitespace and deduplicated (`.unique().tolist()`), keeping
first-occurrence order. -/
def uploaded_microbes (rawCol : List String) : List String :=
  uniqList (rawCol.map pyStrip)

theorem mem_foldl_updateMatched (ref : List Record) :
    ∀ (qs : List String) (acc : List String) (v : String),
      v ∈ qs.foldl (updateMatched ref) acc ↔
        v ∈ acc ∨ (v ∈ ref.map (fun r => r.microbe) ∧ ∃ q ∈ qs, matchesQuery v q = true) := by
  intro qs
  induction qs with
  | nil => intro acc v; simp
  | cons q qs ih =>
    intro acc v
    rw [List.foldl_cons, ih]
    have hstep : v ∈ updateMatched ref acc q ↔
        v ∈ acc ∨ (v ∈ ref.map (fun r => r.microbe) ∧ matchesQuery v q = true) := by
      simp only [updateMatched, List.mem_append, List.mem_filter, mem_uniqList,
        List.contains, List.elem_eq_mem, Bool.not_eq_true', decide_eq_false_iff_not]
      by_cases hv : v ∈ acc
      · simp [hv]
      · simp [hv]
    rw [hstep]
    constructor
    · rintro ((h | ⟨h1, h2⟩) | ⟨h1, q2, hq2, h2⟩)
      · exact Or.inl h
      · exact Or.inr ⟨h1, q, List.mem_cons_self q qs, h2⟩
      · exact Or.inr ⟨h1, q2, List.mem_cons_of_mem q hq2, h2⟩
    · rintro (h | ⟨h1, q2, hq2, h2⟩)
      · exact Or.inl (Or.inl h)
      · rcases List.mem_cons.mp hq2 with rfl | hq2
        · exact Or.inl (Or.inr ⟨h1, h2⟩)
        · exact Or.inr ⟨h1, q2, hq2, h2⟩

theorem isPrefixOfNilLeft (l : List Char) : List.isPrefixOf [] l = true := by
  cases l <;> rfl

/-- Model of pandas `Series.isin(sel)` applied to one cell: a null cell
(`NaN`) is never a member of the selection. -/
def optIsin (v : Option String) (sel : List String) : Bool :=
  match v with
  | some s => sel.contains s
  | none => false

/-- The five multiselect filter states from source lines 66-70 (the `Host`
column is displayed but not filterable). -/
structure Selections where
  microbe : List String
  condition : List String
  effect : List String
  sampleType : List String
  method : List String
deriving DecidableEq

/-- Source lines 73-83: the filter chain.  Python truthiness makes an empty
selection list skip its `isin` filter; the Microbe column is non-null, so its
`isin` test is wrapped as `optIsin (some _)`. -/
def filtered_df (working : List Record) (s : Selections) : List Record :=
  let f1 := if s.microbe.isEmpty then working
    else working.filter (fun r => optIsin (some r.microbe) s.microbe)
  let f2 := if s.condition.isEmpty then f1
    else f1.filter (fun r => optIsin r.condition s.condition)
  let f3 := if s.effect.isEmpty then f2
    else f2.filter (fun r => optIsin r.effect s.effect)
  let f4 := if s.sampleType.isEmpty then f3
    else f3.filter (fun r => optIsin r.sampleType s.sampleType)
  if s.method.isEmpty then f4
  else f4.filter (fun r => optIsin r.method s.method)

/-- Spec-side per-column condition (§4.2 of the spec): the selection set is
empty, or the row's value for the column is a member of the set. -/
def colPass (sel : List String) (v : Option String) : Bool :=
  sel.isEmpty || optIsin v sel

/-- Spec-side retention predicate (§4.2): the conjunction of the five
per-column conditions. -/
def specRetains (s : Selections) (r : Record) : Bool :=
  colPass s.microbe (some r.microbe) && colPass s.condition r.condition &&
    colPass s.effect r.effect && colPass s.sampleType r.sampleType &&
    colPass s.method r.method

theorem if_empty_filter_eq (l : List Record) (sel : List String) (f : Record → Option String) :
    (if sel.isEmpty then l else l.filter (fun r => optIsin (f r) sel)) =
      l.filter (fun r => colPass sel (f r)) := by
  by_cases h : sel.isEmpty
  · simp [h, colPass]
  · simp only [h, if_false, colPass]
    apply List.filter_congr
    intro r _
    simp [Bool.eq_false_iff.mpr, h]

theorem boolReassoc (a b c d e : Bool) :
    (e && (d && (c && (b && a)))) = (a && b && c && d && e) := by
  cases a <;> cases b <;> cases c <;> cases d <;> cases e <;> rfl

theorem filtered_df_eq_filter (w : List Record) (s : Selections) :
    filtered_df w s = w.filter (fun r => specRetains s r) := by
  unfold filtered_df
  simp only [if_empty_filter_eq]
  simp only [List.filter_filter]
  apply List.filter_congr
  intro r _
  rw [specRetains, boolReassoc]

/-- Pointwise union of two selection states (used to state commutativity of
independent column filters). -/
def mergeSelections (s1 s2 : Selections) : Selections :=
  ⟨s1.microbe ++ s2.microbe, s1.condition ++ s2.condition, s1.effect ++ s2.effect,
    s1.sampleType ++ s2.sampleType, s1.method ++ s2.method⟩

/-- Two selection states constrain disjoint columns: on every column at least
one of the two has no constraint. -/
def disjointSelections (s1 s2 : Selections) : Prop :=
  (s1.microbe = [] ∨ s2.microbe = []) ∧ (s1.condition = [] ∨ s2.condition = []) ∧
    (s1.effect = [] ∨ s2.effect = []) ∧ (s1.sampleType = [] ∨ s2.sampleType = []) ∧
    (s1.method = [] ∨ s2.method = [])

instance (s1 s2 : Selections) : Decidable (disjointSelections s1 s2) := by
  unfold disjointSelections
  infer_instance

theorem colPass_append (a b : List String) (h : a = [] ∨ b = []) (v : Option String) :
    colPass (a ++ b) v = (colPass a v && colPass b v) := by
  rcases h with rfl | rfl
  · simp [colPass]
  · cases v <;> simp [colPass, optIsin]

theorem boolShuffle10 (a1 b1 c1 d1 e1 a2 b2 c2 d2 e2 : Bool) :
    ((a1 && a2) && (b1 && b2) && (c1 && c2) && (d1 && d2) && (e1 && e2)) =
      ((a2 && b2 && c2 && d2 && e2) && (a1 && b1 && c1 && d1 && e1)) := by
  cases a1 <;> cases b1 <;> cases c1 <;> cases d1 <;> cases e1 <;>
    cases a2 <;> cases b2 <;> cases c2 <;> cases d2 <;> cases e2 <;> rfl

theorem specRetains_merge (s1 s2 : Selections) (h : disjointSelections s1 s2) (r : Record) :
    specRetains (mergeSelections s1 s2) r = (specRetains s2 r && specRetains s1 r) := by
  obtain ⟨h1, h2, h3, h4, h5⟩ := h
  simp only [specRetains, mergeSelections]
  rw [colPass_append _ _ h1, colPass_append _ _ h2, colPass_append _ _ h3,
    colPass_append _ _ h4, colPass_append _ _ h5]
  rw [boolShuffle10]

/-- Terminal outcomes of the upload branch (source lines 19-48).
`keyError` is the uncaught pandas `KeyError` raised by the column access on
line 21; `schemaError` is the `st.error` + `st.stop` at lines 23-25;
`noMatchError` is the `st.error` + `st.stop` at lines 39-41. -/
inductive UploadFailure where
  | keyError
  | schemaError
  | noMatchError
deriving DecidableEq

/-- The data produced by a successful pass through the matcher. -/
structure UploadOutput where
  working : List Record
  matchedValues : List String
  unmatchedQueries : List String
deriving DecidableEq

/-- The uploaded CSV, as a list of named columns. -/
structure InputTable where
  cols : List (String × List String)
deriving DecidableEq

/-- Model of `input_df[name]`: the first column with the given name, if any. -/
def getCol (t : InputTable) (name : String) : Option (List String) :=
  (t.cols.find? (fun c => c.fst == name)).map (fun c => c.snd)

/-- Source lines 19-48, the upload branch.  Note the order of operations in
the source: line 21 accesses `input_df["Microbe"]` (raising `KeyError` when
the column is absent) before the membership check at line 23 runs, so the
`schemaError` branch is unreachable. -/
def runUpload (t : InputTable) (ref : List Record) : Except UploadFailure UploadOutput :=
  match getCol t "Microbe" with
  | none => .error .keyError
  | some rawCol =>
    if (t.cols.map (fun c => c.fst)).contains "Microbe" then
      let queries := uploaded_microbes rawCol
      let working := working_df ref queries
      if working.isEmpty then .error .noMatchError
      else .ok ⟨working, matched_microbes ref queries, unmatched ref queries⟩
    else .error .schemaError

theorem contains_of_getCol (t : InputTable) (name : String) (col : List String)
    (h : getCol t name = some col) :
    (t.cols.map (fun c => c.fst)).contains name = true := by
  unfold getCol at h
  cases hf : t.cols.find? (fun c => c.fst == name) with
  | none => rw [hf] at h; simp at h
  | some c =>
    have h1 : c.fst = name := by
      have hb := List.find?_some hf
      simpa using hb
    have h2 : c ∈ t.cols := List.mem_of_find?_eq_some hf
    have h3 : name ∈ t.cols.map (fun c => c.fst) := by
      rw [← h1]
      exact List.mem_map_of_mem _ h2
    simpa [List.contains, List.elem_eq_mem] using h3

/-- Descending-count comparator used to model the ordering of
`Series.value_counts()`. -/
def countDescLE (a b : String × Nat) : Bool := decide (b.snd ≤ a.snd)

/-- The (value, count) pairs produced by counting a column, keys in
first-occurrence order (pandas hash-table order). -/
def valueCountsPairs (vals : List String) : List (String × Nat) :=
  (uniqList vals).map (fun k => (k, vals.count k))

/-- Model of `Series.value_counts()` followed by an optional `.head(n)`
(source lines 129-146): count each distinct value and sort by count
descending with a stable sort, so ties keep first-occurrence order. -/
def valueCounts (vals : List String) (topN : Option Nat) : List (String × Nat) :=
  match topN with
  | none => (valueCountsPairs vals).mergeSort countDescLE
  | some n => ((valueCountsPairs vals).mergeSort countDescLE).take n

/-- The non-null values of one column of a table (`value_counts` drops
nulls). -/
def columnValues (T : List Record) (get : Record → Option String) : List String :=
  T.filterMap get

/-- Source lines 129-131: `filtered_df["Effect"].value_counts()`. -/
def effect_counts (T : List Record) : List (String × Nat) :=
  valueCounts (columnValues T (fun r => r.effect)) none

/-- Source lines 134-136: `filtered_df["Condition"].value_counts().head(10)`. -/
def condition_counts (T : List Record) : List (String × Nat) :=
  valueCounts (columnValues T (fun r => r.condition)) (some 10)

/-- Source lines 139-141: `filtered_df["Sample Type"].value_counts()`. -/
def sample_counts (T : List Record) : List (String × Nat) :=
  valueCounts (columnValues T (fun r => r.sampleType)) none

/-- Source lines 144-146: `filtered_df["Microbe"].value_counts().head(10)`
(the Microbe column is non-null). -/
def microbe_counts (T : List Record) : List (String × Nat) :=
  valueCounts (T.map (fun r => r.microbe)) (some 10)

theorem countDescLE_trans :
    ∀ (a b c : String × Nat), countDescLE a b → countDescLE b c → countDescLE a c := by
  intro a b c h1 h2
  simp only [countDescLE, decide_eq_true_eq] at *
  omega

theorem countDescLE_total : ∀ (a b : String × Nat), countDescLE a b || countDescLE b a := by
  intro a b
  simp only [countDescLE, Bool.or_eq_true, decide_eq_true_eq]
  omega

/-- A concrete reference row used by the closed witnesses below. -/
def sampleRecord : Record :=
  ⟨"escherichia coli", some "Obesity", some "Increased", some "Stool", some "Human",
    some "16S rRNA", some "Study A", some "pubmed/1"⟩

/-- Spec-side set from §8 item 2: the queries with at least one reference
match. -/
def matchedQueries (ref : List Record) (queries : List String) : List String :=
  queries.filter (fun q => ref.any (fun r => matchesQuery r.microbe q))

/-- C1: Matcher membership rule — a reference row is in the working table
iff some query `q` satisfies `lower(r.Microbe).startswith(lower(q))`, and
`matched_microbes` is exactly the set of distinct reference Microbe values
that matched at least one query. -/
theorem matcher_membership_rule (ref : List Record) (queries : List String) (r : Record)
    (hr : r ∈ ref) :
    (r ∈ working_df ref queries ↔ ∃ q ∈ queries, matchesQuery r.microbe q = true)
    ∧ (∀ v, v ∈ matched_microbes ref queries ↔
        (v ∈ ref.map (fun x => x.microbe) ∧ ∃ q ∈ queries, matchesQuery v q = true)) := by
  constructor
  · unfold working_df
    rw [List.mem_filter]
    simp only [hr, true_and, matchesAny, List.any_eq_true]
  · intro v
    unfold matched_microbes
    rw [mem_foldl_updateMatched]
    simp only [List.not_mem_nil, false_or]

/-- C1 witness: the membership rule evaluated on a concrete one-row
reference table and the query list `["esch"]`. -/
theorem matcher_membership_rule_witness :
    (sampleRecord ∈ working_df [sampleRecord] ["esch"] ↔
      ∃ q ∈ ["esch"], matchesQuery sampleRecord.microbe q = true)
    ∧ (∀ v, v ∈ matched_microbes [sampleRecord] ["esch"] ↔
        (v ∈ [sampleRecord].map (fun x => x.microbe) ∧
          ∃ q ∈ ["esch"], matchesQuery v q = true)) :=
  matcher_membership_rule [sampleRecord] ["esch"] sampleRecord (by decide)

/-- C4: Matcher partition — every query is either unmatched or has at least
one match, never both, and the unmatched list is a subsequence of the query
list (original order, no extra deduplication). -/
theorem matcher_partition (ref : List Record) (queries : List String) :
    (∀ q, q ∈ queries ↔
      (q ∈ unmatched ref queries ∨ q ∈ matchedQueries ref queries))
    ∧ (∀ q, ¬(q ∈ unmatched ref queries ∧ q ∈ matchedQueries ref queries))
    ∧ List.Sublist (unmatched ref queries) queries := by
  refine ⟨?_, ?_, ?_⟩
  · intro q
    unfold unmatched matchedQueries
    simp only [List.mem_filter, Bool.not_eq_true', Bool.not_eq_true]
    by_cases h : (ref.any (fun r => matchesQuery r.microbe q)) = true
    · simp [h]
    · simp [h, Bool.eq_false_iff.mpr h]
  · intro q
    unfold unmatched matchedQueries
    simp only [List.mem_filter]
    rintro ⟨⟨-, h1⟩, -, h2⟩
    simp [h2] at h1
  · unfold unmatched
    exact List.filter_sublist _

/-- C4 witness: the partition evaluated on a concrete reference table and
query list. -/
theorem matcher_partition_witness :
    (∀ q, q ∈ ["esch", "zz"] ↔
      (q ∈ unmatched [sampleRecord] ["esch", "zz"]
        ∨ q ∈ matchedQueries [sampleRecord] ["esch", "zz"]))
    ∧ (∀ q, ¬(q ∈ unmatched [sampleRecord] ["esch", "zz"]
        ∧ q ∈ matchedQueries [sampleRecord] ["esch", "zz"]))
    ∧ List.Sublist (unmatched [sampleRecord] ["esch", "zz"]) ["esch", "zz"] :=
  matcher_partition [sampleRecord] ["esch", "zz"]

/-- C6: Filter Engine — a row is retained iff for each of the five
filterable columns the selection is empty or the row's value belongs to it,
conjunctively; the filter is the total function `List.filter`, so an empty
result is ordinary output, not a failure. -/
theorem filter_engine_rule (w : List Record) (s : Selections) :
    filtered_df w s = w.filter (fun r => specRetains s r)
    ∧ (∀ r, r ∈ filtered_df w s ↔ (r ∈ w ∧ specRetains s r = true)) := by
  refine ⟨filtered_df_eq_filter w s, ?_⟩
  intro r
  rw [filtered_df_eq_filter w s, List.mem_filter]

/-- C7: Filter Engine algebra — filtering is idempotent, and filters on
disjoint columns compose into the pointwise-merged selection. -/
theorem filter_engine_algebra (T : List Record) (s s1 s2 : Selections)
    (hd : disjointSelections s1 s2) :
    filtered_df (filtered_df T s) s = filtered_df T s
    ∧ filtered_df (filtered_df T s1) s2 = filtered_df T (mergeSelections s1 s2) := by
  constructor
  · simp only [filtered_df_eq_filter, List.filter_filter]
    apply List.filter_congr
    intro r _
    rw [Bool.and_self]
  · simp only [filtered_df_eq_filter, List.filter_filter]
    apply List.filter_congr
    intro r _
    exact (specRetains_merge s1 s2 hd r).symm

/-- Selection constraining only the Condition column. -/
def selCondition : Selections := ⟨[], ["Obesity"], [], [], []⟩

/-- Selection constraining only the Effect column. -/
def selEffect : Selections := ⟨[], [], ["Increased"], [], []⟩

/-- C7 witness: idempotence and disjoint-column composition on a concrete
one-row table with Condition-only and Effect-only selections. -/
theorem filter_engine_algebra_witness :
    filtered_df (filtered_df [sampleRecord] selCondition) selCondition
      = filtered_df [sampleRecord] selCondition
    ∧ filtered_df (filtered_df [sampleRecord] selCondition) selEffect
      = filtered_df [sampleRecord] (mergeSelections selCondition selEffect) :=
  filter_engine_algebra [sampleRecord] selCondition selCondition selEffect (by decide)

/-- C9: a blank uploaded query strips to the empty string, and
`startswith("")` holds for every reference Microbe value, so the working
table is the whole reference table. -/
theorem blank_query_matches_everything (ref : List Record) (raws : List String) (q0 : String)
    (hq : q0 ∈ raws) (hblank : pyStrip q0 = "") :
    working_df ref (uploaded_microbes raws) = ref := by
  unfold working_df
  apply List.filter_eq_self.mpr
  intro r _
  have hm : "" ∈ uploaded_microbes raws := by
    unfold uploaded_microbes
    rw [mem_uniqList, ← hblank]
    exact List.mem_map_of_mem pyStrip hq
  unfold matchesAny
  rw [List.any_eq_true]
  refine ⟨"", hm, ?_⟩
  unfold matchesQuery pyStartswith
  have hdata : (pyLower "").data = [] := rfl
  rw [hdata]
  exact isPrefixOfNilLeft _

/-- C9 witness: a whitespace-only query matches the entire concrete
reference table. -/
theorem blank_query_matches_everything_witness :
    working_df [sampleRecord] (uploaded_microbes [" "]) = [sampleRecord] :=
  blank_query_matches_everything [sampleRecord] [" "] " " (by decide) (by decide)

/-- C10: the filter engine and the matcher return subsequences of their
input tables — rows unmodified, relative order preserved. -/
theorem filter_and_matcher_subsequence (w ref : List Record) (s : Selections)
    (queries : List String) :
    List.Sublist (filtered_df w s) w ∧ List.Sublist (working_df ref queries) ref := by
  constructor
  · rw [filtered_df_eq_filter]
    exact List.filter_sublist _
  · unfold working_df
    exact List.filter_sublist _

/-- C3: the schema check at source line 23 is dead code — line 21 already
accessed `input_df["Microbe"]`, so an upload without a `Microbe` column
raises an uncaught `KeyError` and the `SchemaError` path (`st.error` +
`st.stop`) can never run.  Shown here as: no run of the upload branch ever
produces `schemaError`, and the concrete column-less upload produces
`keyError`. -/
theorem missing_column_raises_keyError :
    (∀ (t : InputTable) (ref : List Record),
      runUpload t ref ≠ Except.error UploadFailure.schemaError)
    ∧ runUpload ⟨[("Name", ["Escherichia"])]⟩ [] = Except.error UploadFailure.keyError := by
  constructor
  · intro t ref h
    unfold runUpload at h
    cases hc : getCol t "Microbe" with
    | none =>
      rw [hc] at h
      exact absurd (Except.error.inj h) (by decide)
    | some rawCol =>
      rw [hc] at h
      rw [contains_of_getCol t "Microbe" rawCol hc] at h
      simp only [if_true] at h
      by_cases hie : (working_df ref (uploaded_microbes rawCol)).isEmpty
      · rw [if_pos hie] at h
        exact absurd (Except.error.inj h) (by decide)
      · rw [if_neg hie] at h
        exact Except.noConfusion h
  · rfl

/-- C3 witness: both parts evaluated at the concrete upload whose columns
are `["Name"]`. -/
theorem missing_column_raises_keyError_witness :
    runUpload ⟨[("Name", ["Escherichia"])]⟩ [] ≠ Except.error UploadFailure.schemaError
    ∧ runUpload ⟨[("Name", ["Escherichia"])]⟩ [] = Except.error UploadFailure.keyError :=
  ⟨missing_column_raises_keyError.1 ⟨[("Name", ["Escherichia"])]⟩ [],
    missing_column_raises_keyError.2⟩

/-- C8: when the Microbe column is present but every query misses, the
upload branch aborts with `noMatchError`, a failure distinct from
`schemaError`, and returns no output table. -/
theorem empty_working_aborts_noMatch (t : InputTable) (ref : List Record)
    (rawCol : List String)
    (hcol : getCol t "Microbe" = some rawCol)
    (hmiss : ∀ q ∈ uploaded_microbes rawCol, ∀ r ∈ ref, ¬ (matchesQuery r.microbe q = true)) :
    runUpload t ref = Except.error UploadFailure.noMatchError
    ∧ UploadFailure.noMatchError ≠ UploadFailure.schemaError := by
  refine ⟨?_, by decide⟩
  unfold runUpload
  rw [hcol]
  rw [contains_of_getCol t "Microbe" rawCol hcol]
  have hempty : working_df ref (uploaded_microbes rawCol) = [] := by
    unfold working_df
    apply List.filter_eq_nil_iff.mpr
    intro r hrmem hmatch
    unfold matchesAny at hmatch
    rw [List.any_eq_true] at hmatch
    obtain ⟨q, hq, hmq⟩ := hmatch
    exact hmiss q hq r hrmem hmq
  simp only [if_true, hempty, List.isEmpty_nil, if_pos]

/-- C8 witness: a concrete upload whose single query matches nothing in the
concrete reference table. -/
theorem empty_working_aborts_noMatch_witness :
    runUpload ⟨[("Microbe", ["zz"])]⟩ [sampleRecord]
        = Except.error UploadFailure.noMatchError
    ∧ UploadFailure.noMatchError ≠ UploadFailure.schemaError :=
  empty_working_aborts_noMatch ⟨[("Microbe", ["zz"])]⟩ [sampleRecord] ["zz"]
    (by decide)
    (by
      have hmap : (["zz"].map pyStrip) = ["zz"] := by decide
      have h : uploaded_microbes ["zz"] = ["zz"] := by
        unfold uploaded_microbes
        rw [hmap, uniqList_cons]
        simp [uniqList_nil]
      rw [h]
      decide)

theorem valueCounts_none (vals : List String) :
    valueCounts vals none = (valueCountsPairs vals).mergeSort countDescLE := rfl

theorem valueCounts_some (vals : List String) (n : Nat) :
    valueCounts vals (some n) = ((valueCountsPairs vals).mergeSort countDescLE).take n := rfl

/-- C5: Aggregator — `valueCounts` groups by value and counts occurrences,
orders by count descending, breaks ties by first-encountered order,
truncates to the first `n` entries for `topN = some n`, its counts sum to
the number of non-null values counted, and the four chart calls use
(Effect, no limit), (Condition, top 10), (Sample Type, no limit),
(Microbe, top 10). -/
theorem aggregator_value_counts (vals : List String) (T : List Record) :
    (∀ k c, (k, c) ∈ valueCounts vals none ↔ (k ∈ vals ∧ c = vals.count k))
    ∧ (valueCounts vals none).Pairwise (fun a b => b.snd ≤ a.snd)
    ∧ (∀ m, (valueCounts vals none).filter (fun p => p.snd == m)
        = (valueCountsPairs vals).filter (fun p => p.snd == m))
    ∧ (∀ n, valueCounts vals (some n) = (valueCounts vals none).take n)
    ∧ ((valueCounts vals none).map (fun p => p.snd)).sum = vals.length
    ∧ effect_counts T = valueCounts (columnValues T (fun r => r.effect)) none
    ∧ condition_counts T = (valueCounts (columnValues T (fun r => r.condition)) none).take 10
    ∧ sample_counts T = valueCounts (columnValues T (fun r => r.sampleType)) none
    ∧ microbe_counts T = (valueCounts (T.map (fun r => r.microbe)) none).take 10 := by
  refine ⟨?_, ?_, ?_, ?_, ?_, rfl, rfl, rfl, rfl⟩
  · intro k c
    rw [valueCounts_none, List.mem_mergeSort]
    unfold valueCountsPairs
    rw [List.mem_map]
    constructor
    · rintro ⟨a, ha, heq⟩
      injection heq with h1 h2
      subst h1
      subst h2
      exact ⟨(mem_uniqList _ _).mp ha, rfl⟩
    · rintro ⟨hk, rfl⟩
      exact ⟨k, (mem_uniqList _ _).mpr hk, rfl⟩
  · rw [valueCounts_none]
    have hs := List.sorted_mergeSort countDescLE_trans countDescLE_total (valueCountsPairs vals)
    exact hs.imp (fun h => by simpa [countDescLE] using h)
  · intro m
    rw [valueCounts_none]
    have hcall : ∀ p ∈ (valueCountsPairs vals).filter (fun p => p.snd == m), p.snd = m := by
      intro p hp
      have h2 := (List.mem_filter.mp hp).2
      simpa using h2
    have hpair : ((valueCountsPairs vals).filter (fun p => p.snd == m)).Pairwise
        (fun a b => countDescLE a b = true) := by
      apply List.pairwise_of_forall_mem_list
      intro a ha b hb
      simp [countDescLE, hcall a ha, hcall b hb]
    have hsub : List.Sublist ((valueCountsPairs vals).filter (fun p => p.snd == m))
        ((valueCountsPairs vals).mergeSort countDescLE) :=
      List.sublist_mergeSort countDescLE_trans countDescLE_total hpair (List.filter_sublist _)
    have hsub2 : List.Sublist ((valueCountsPairs vals).filter (fun p => p.snd == m))
        (((valueCountsPairs vals).mergeSort countDescLE).filter (fun p => p.snd == m)) := by
      have h1 := hsub.filter (fun p => p.snd == m)
      rwa [List.filter_eq_self.mpr (fun p hp => by simpa using hcall p hp)] at h1
    have hperm : List.Perm
        (((valueCountsPairs vals).mergeSort countDescLE).filter (fun p => p.snd == m))
        ((valueCountsPairs vals).filter (fun p => p.snd == m)) :=
      (List.mergeSort_perm (valueCountsPairs vals) countDescLE).filter _
    exact (hsub2.eq_of_length hperm.length_eq.symm).symm
  · intro n
    rw [valueCounts_some, valueCounts_none]
  · rw [valueCounts_none]
    have hperm : List.Perm ((valueCountsPairs vals).mergeSort countDescLE)
        (valueCountsPairs vals) := List.mergeSort_perm _ _
    rw [(hperm.map (fun p => p.snd)).sum_eq]
    unfold valueCountsPairs
    rw [List.map_map]
    exact sum_counts_uniqList vals

end MicrobiomeExplorer
